import Mathlib

/-!
Shallow embedding of the pure core of the whisperx transcription and
summarization pipeline (`TM.py`, `SummaryModel.py`, `app/services/pipeline.py`,
`app/services/summarizer.py`, `app/utils/formatting.py`, `api.py`).
Numeric timestamps are modelled as rationals; Python dictionaries are
modelled as insertion-ordered association lists.
-/

/-- Python whitespace characters recognised by `str.split()` / `str.strip()`
(ASCII subset; sufficient for the texts handled here). -/
def pyIsSpace (c : Char) : Bool :=
  c == ' ' || c == '\t' || c == '\n' || c == '\r' || c == '\x0b' || c == '\x0c'

/-- Python `str.strip()`. -/
def pyStrip (s : String) : String :=
  ⟨((s.data.dropWhile pyIsSpace).reverse.dropWhile pyIsSpace).reverse⟩

/-- Split a character list at every character satisfying `p`; `acc` holds the
current field reversed. -/
def splitPredAux (p : Char → Bool) : List Char → List Char → List (List Char)
  | [], acc => [acc.reverse]
  | x :: xs, acc =>
    if p x then acc.reverse :: splitPredAux p xs []
    else splitPredAux p xs (x :: acc)

/-- Python `str.split()` with no argument: the maximal non-whitespace runs,
i.e. the nonempty fields left after cutting at every whitespace character. -/
def pySplitWS (s : String) : List String :=
  ((splitPredAux pyIsSpace s.data []).map (fun l => (⟨l⟩ : String))).filter
    (fun t => t ≠ "")

/-- Python `s.split(sep)` for a one-character separator. -/
def pySplitChar (c : Char) (s : String) : List String :=
  (splitPredAux (fun x => x == c) s.data []).map (fun l => ⟨l⟩)

/-- Python `s.startswith(pre)`. -/
def pyStartsWith (s pre : String) : Bool := pre.data.isPrefixOf s.data

/-- Decimal value of a digit list. -/
def decVal (l : List Char) : ℕ :=
  l.foldl (fun a c => a * 10 + (c.toNat - 48)) 0

/-- Python `int(s)` restricted to plain non-empty decimal-digit strings;
`none` models a `ValueError` (signs, blanks and underscores never reach this
call site under the claims considered here). -/
def pyInt (s : String) : Option ℕ :=
  if s ≠ "" ∧ s.data.all Char.isDigit then some (decVal s.data) else none

/-- Model of `format_speaker` from `app/utils/formatting.py` lines 3-8 and `TM.py`
lines 64-69.  `none` as input models Python `None`; `none` as output models an
uncaught exception (`IndexError` from `split('_')[1]` on a string with no
underscore, or `ValueError` from `int` on a non-numeric field). -/
def format_speaker (speaker : Option String) : Option String :=
  match speaker with
  | none => some "Unknown"
  | some s =>
    if s ≠ "" ∧ pyStartsWith s "SPEAKER_" then
      match (pySplitChar '_' s).get? 1 with
      | none => none
      | some part =>
        match pyInt part with
        | none => none
        | some n => some ("คนพูด " ++ toString (n + 1))
    else some (if s = "" then "Unknown" else s)

/-- Python `f"{n:02d}"`: zero-pad to width two. -/
def pad2 (n : ℤ) : String :=
  if n < 0 then "-" ++ toString (-n)
  else if n < 10 then "0" ++ toString n
  else toString n

/-- Model of `format_time` from `app/utils/formatting.py` lines 10-15 and `TM.py`
lines 72-77.  Python `seconds // 60` floors, `seconds % 60` and `seconds % 1`
are in `[0, 60)` resp. `[0, 1)`, and `int(...)` of those non-negative values
floors, so each field is the floor shown here. -/
def format_time (seconds : ℚ) : String :=
  let m : ℤ := ⌊seconds / 60⌋
  let s : ℤ := ⌊seconds - 60 * ⌊seconds / 60⌋⌋
  let ms : ℤ := ⌊(seconds - ⌊seconds⌋) * 100⌋
  pad2 m ++ ":" ++ pad2 s ++ "." ++ pad2 ms

/-- One transcript segment as handed to the aggregation pass of
`TranscribeSummaryPipeline.process`: `start`/`end` timestamps, the optional
diarization speaker label, and the text. -/
structure Segment where
  start : ℚ
  «end» : ℚ
  speaker : Option String
  text : String
deriving DecidableEq

/-- Lookup in an insertion-ordered association list: Python `d[k]`
(`some` iff the key is present). -/
def dictFind {κ α : Type} [BEq κ] (d : List (κ × α)) (k : κ) : Option α :=
  (d.find? (fun p => p.1 == k)).map (fun p => p.2)

/-- Python `d.get(k, dflt)`. -/
def dictGetD {κ α : Type} [BEq κ] (d : List (κ × α)) (k : κ) (dflt : α) : α :=
  (dictFind d k).getD dflt

/-- Python `d[k] = v`: replace in place when the key is present, otherwise
append (dict insertion order). -/
def dictUpd {κ α : Type} [BEq κ] : List (κ × α) → κ → α → List (κ × α)
  | [], k, v => [(k, v)]
  | (k', v') :: rest, k, v =>
    if k' == k then (k, v) :: rest else (k', v') :: dictUpd rest k v

/-- Ordering used by `sorted(result.get('segments', []), key=lambda x: x['start'])`. -/
def segLE (a b : Segment) : Prop := a.start ≤ b.start

instance : DecidableRel segLE := fun a b =>
  inferInstanceAs (Decidable (a.start ≤ b.start))

instance : IsTotal Segment segLE := ⟨fun a b => le_total a.start b.start⟩

instance : IsTrans Segment segLE := ⟨fun _ _ _ h h' => le_trans h h'⟩

/-- Python `sorted(segments, key=lambda x: x['start'])`: a stable sort by
start time.  Stable sorts by a key agree extensionally, so insertion sort is a
faithful model of CPython's sort here. -/
def sortSegments (l : List Segment) : List Segment := List.insertionSort segLE l

/-- The transcript line `f"[{speaker}]: {text}"` built for one segment inside
`process`, with `text = segment.get('text', '').strip()`. -/
def mkLine (s : Segment) : Option String :=
  (format_speaker s.speaker).map (fun spk => "[" ++ spk ++ "]: " ++ pyStrip s.text)

/-- The aggregation loop of `TranscribeSummaryPipeline.process`
(`app/services/pipeline.py` lines 153-161, `TM.py` lines 215-223) with the two
dictionaries and the transcript line list threaded explicitly; `none` models
an exception escaping from `format_speaker`. -/
def processLoop :
    List Segment → List (String × ℚ) → List (String × ℕ) → List String →
      Option (List (String × ℚ) × List (String × ℕ) × List String)
  | [], st, wc, lines => some (st, wc, lines)
  | seg :: rest, st, wc, lines =>
    match format_speaker seg.speaker with
    | none => none
    | some speaker =>
      let duration := seg.«end» - seg.start
      let text := pyStrip seg.text
      let words := (pySplitWS text).length
      processLoop rest
        (dictUpd st speaker (dictGetD st speaker 0 + duration))
        (dictUpd wc speaker (dictGetD wc speaker 0 + words))
        (lines ++ ["[" ++ speaker ++ "]: " ++ text])

/-- The parts of `TranscribeSummaryPipeline.process`'s output built by its
aggregation pass. -/
structure ProcessOutput where
  segments : List Segment
  speaking_time : List (String × ℚ)
  word_count : List (String × ℕ)
  transcript_with_speakers : String
deriving DecidableEq

/-- The pure aggregation pass of `TranscribeSummaryPipeline.process`
(`app/services/pipeline.py` lines 148-167, `TM.py` lines 210-229). -/
def process (segs : List Segment) : Option ProcessOutput :=
  let segments := sortSegments segs
  match processLoop segments [] [] [] with
  | none => none
  | some (st, wc, lines) =>
    some ⟨segments, st, wc, String.intercalate "\n" lines⟩

/-- The segments whose formatted speaker label is `k`. -/
def labelFilter (segs : List Segment) (k : String) : List Segment :=
  segs.filter (fun s => format_speaker s.speaker == some k)

/-- A segment's duration `segment['end'] - segment['start']`. -/
def segDur (s : Segment) : ℚ := s.«end» - s.start

/-- A segment's word count `len(segment.get('text', '').strip().split())`. -/
def segWords (s : Segment) : ℕ := (pySplitWS (pyStrip s.text)).length

/-- Specification view for the aggregation claim: the total speaking time the
claim assigns to a formatted speaker label (`none` when no segment carries
the label). -/
def spec_speaking_time (segs : List Segment) (lbl : String) : Option ℚ :=
  if labelFilter segs lbl = [] then none
  else some (((labelFilter segs lbl).map segDur).sum)

/-- Specification view for the aggregation claim: the total word count the
claim assigns to a formatted speaker label. -/
def spec_word_count (segs : List Segment) (lbl : String) : Option ℕ :=
  if labelFilter segs lbl = [] then none
  else some (((labelFilter segs lbl).map segWords).sum)

/-- One entry of `MEETING_TYPES` (`SummaryModel.py` lines 14-27). -/
structure MeetingInfo where
  name : String
  thai : String
  «structure» : String
deriving DecidableEq

/-- Model of `MEETING_TYPES` from `SummaryModel.py` lines 14-27, as an
insertion-ordered association list keyed by Python ints. -/
def MEETING_TYPES : List (ℤ × MeetingInfo) := [
  (0, ⟨"Auto-Detect", "ตรวจจับอัตโนมัติ", "วิเคราะห์จากเนื้อหา"⟩),
  (1, ⟨"Shareholder Meeting", "ประชุมผู้ถือหุ้น", "วาระ → มติ → เงินปันผล → ข้อสรุป"⟩),
  (2, ⟨"Board Meeting", "ประชุมคณะกรรมการ", "นโยบาย → การอนุมัติ → มติคณะกรรมการ"⟩),
  (3, ⟨"Planning Meeting", "ประชุมวางแผน", "เป้าหมาย → แผนงาน → ไทม์ไลน์ → ผู้รับผิดชอบ → ความเสี่ยง"⟩),
  (4, ⟨"Progress Update", "รายงานความคืบหน้า", "สถานะโครงการ → ความคืบหน้า → ปัญหา → แนวทางแก้ → งานถัดไป"⟩),
  (5, ⟨"Strategy Meeting", "ประชุมเชิงกลยุทธ์", "ทิศทางธุรกิจ → การวิเคราะห์ → กลยุทธ์ → Action Plan"⟩),
  (6, ⟨"Incident Review", "ประชุมแก้ไขปัญหา", "รายละเอียดปัญหา → สาเหตุ → ผลกระทบ → แนวทางแก้ไข → การป้องกัน"⟩),
  (7, ⟨"Client Meeting", "ประชุมลูกค้า", "ข้อเสนอ → Feedback → ข้อตกลง → Next Steps"⟩),
  (8, ⟨"Workshop", "เชิงปฏิบัติการ", "หัวข้อ → เนื้อหาสำคัญ → บทเรียน → Action Items"⟩),
  (9, ⟨"Executive Meeting", "ประชุมผู้บริหาร", "ประเด็นสำคัญ → การตัดสินใจ → มติ → ผู้รับผิดชอบ"⟩),
  (10, ⟨"Team Meeting", "ประชุมทีมงาน", "อัพเดตงาน → การมอบหมาย → ปัญหา → สิ่งที่ต้องทำ"⟩),
  (11, ⟨"General Meeting", "ประชุมทั่วไป", "วาระ → ประเด็นหารือ → ข้อเสนอแนะ → มติ"⟩)]

/-- Header of the auto-detect prompt of `get_meeting_type_prompt`
(`SummaryModel.py` lines 47-55), up to and including the table header. -/
def auto_prompt_header : String :=
  "**ขั้นตอน:**\n1. วิเคราะห์ข้อมูลผู้พูดเพื่อระบุบทบาท (ประธาน/ผู้นำเสนอ/ผู้เข้าร่วม)\n2. วิเคราะห์เนื้อหาเพื่อระบุประเภทการประชุม\n3. สรุปตามโครงสร้างที่เหมาะสม\n\n**ประเภทการประชุม:**\n| ประเภท | โครงสร้าง |\n|--------|----------|\n"

/-- The specific-type prompt body of `get_meeting_type_prompt`
(`SummaryModel.py` lines 59-62). -/
def specific_prompt (info : MeetingInfo) : String :=
  "**ประเภทการประชุม:** " ++ info.thai ++ " (" ++ info.name ++
  ")\n**โครงสร้างการสรุป:** " ++ info.«structure» ++
  "\n\nสรุปเนื้อหาตามโครงสร้างข้างต้นอย่างละเอียด"

/-- Model of `get_meeting_type_prompt` from `SummaryModel.py` lines 39-62 (the version
in `app/services/summarizer.py` lines 10-36 differs only by an extra focus
paragraph taken from the same dict entry). -/
def get_meeting_type_prompt (meeting_type_id : ℤ) : String :=
  if meeting_type_id = 0 then
    let types_table := String.intercalate "\n"
      ((MEETING_TYPES.filter (fun p => 0 < p.1)).map
        (fun p => "| " ++ p.2.name ++ " | " ++ p.2.«structure» ++ " |"))
    auto_prompt_header ++ types_table
  else
    let info := (dictFind MEETING_TYPES meeting_type_id).getD
      ((dictFind MEETING_TYPES 11).getD ⟨"", "", ""⟩)
    specific_prompt info

/-- Model of `MEETING_TYPES.get(meeting_type_id, MEETING_TYPES[0])` as evaluated in
`summarize_with_diarization` (`SummaryModel.py` line 196) and in
`TranscribeSummaryPipeline.process` (`TM.py` line 232, `pipeline.py` line 170). -/
def meeting_info_auto_default (meeting_type_id : ℤ) : MeetingInfo :=
  (dictFind MEETING_TYPES meeting_type_id).getD
    ((dictFind MEETING_TYPES 0).getD ⟨"", "", ""⟩)

/-- Model of `total_time = sum(speakers_time.values()) if speakers_time else 1`
(`SummaryModel.py` line 181, `app/services/summarizer.py` line 52). -/
def summary_total_time (speakers_time : List (String × ℚ)) : ℚ :=
  if speakers_time = [] then 1 else (speakers_time.map (fun p => p.2)).sum

/-- Model of `pct = (time_sec / total_time * 100) if total_time > 0 else 0`
(`SummaryModel.py` line 185, `TM.py` line 313, `pipeline.py` line 251). -/
def pct_of (total : ℚ) (time_sec : ℚ) : ℚ :=
  if 0 < total then time_sec / total * 100 else 0

/-- Model of `total_time = sum(speakers_time.values())` as computed in `print_results`
(`TM.py` line 310, `app/services/pipeline.py` line 248). -/
def print_total_time (speakers_time : List (String × ℚ)) : ℚ :=
  (speakers_time.map (fun p => p.2)).sum

/-- Model of `allowed_extensions` from `api.py` line 162. -/
def allowed_extensions : List String :=
  [".mp3", ".wav", ".m4a", ".flac", ".ogg", ".webm", ".mp4"]

/-- Model of `os.path.splitext(p)[1]` (posix): the extension starts at the last dot of
the final path component, provided some non-dot character precedes it within
that component. -/
def splitext_ext (p : String) : String :=
  let base := (p.data.reverse.takeWhile (fun c => c != '/')).reverse
  let revBase := base.reverse
  if revBase.contains '.' then
    let afterDot := (revBase.takeWhile (fun c => c != '.')).reverse
    let lead := base.take (base.length - (afterDot.length + 1))
    if lead.all (fun c => c == '.') then "" else ⟨'.' :: afterDot⟩
  else ""

/-- Python `str.lower()` (ASCII; the allowed extensions are plain ASCII). -/
def pyLower (s : String) : String := ⟨s.data.map Char.toLower⟩

/-- The validation prefix of the `/api/transcribe-summarize` endpoint
(`api.py` lines 148-168): `Except.error (status, detail)` models
`raise HTTPException(status_code=status, detail=detail)`; `Except.ok ()`
means both checks passed and the handler proceeds to transcription. -/
def transcribe_summarize_validation (meeting_type_id : ℤ) (filename : String) :
    Except (ℕ × String) Unit :=
  if meeting_type_id < 0 ∨ 11 < meeting_type_id then
    Except.error (400, "meeting_type_id must be between 0 and 11")
  else if ¬ allowed_extensions.contains (pyLower (splitext_ext filename)) then
    Except.error (400,
      "Unsupported file type. Allowed: " ++ String.intercalate ", " allowed_extensions)
  else Except.ok ()

/-- Python exceptions raised by subscripting the response JSON; only
`keyError` and `indexError` are caught in `summarize_with_diarization`. -/
inductive PyErr where
  | keyError (msg : String)
  | indexError (msg : String)
  | typeError (msg : String)
deriving DecidableEq

/-- JSON-like Python values as returned by `response.json()`. -/
inductive PyVal where
  | str (s : String)
  | num (n : ℤ)
  | list (xs : List PyVal)
  | dict (kvs : List (String × PyVal))
  | null

/-- Python `v[k]` for a string key `k`. -/
def pyGetKey : PyVal → String → Except PyErr PyVal
  | .dict kvs, k =>
    match (kvs.find? (fun p => p.1 == k)).map (fun p => p.2) with
    | some v => .ok v
    | none => .error (.keyError ("'" ++ k ++ "'"))
  | .str _, _ => .error (.typeError "string indices must be integers")
  | _, _ => .error (.typeError "object is not subscriptable")

/-- Python `v[i]` for a non-negative integer index `i`. -/
def pyGetIdx : PyVal → ℕ → Except PyErr PyVal
  | .list xs, i =>
    match xs.get? i with
    | some v => .ok v
    | none => .error (.indexError "list index out of range")
  | .str s, i =>
    match s.data.get? i with
    | some c => .ok (.str ⟨[c]⟩)
    | none => .error (.indexError "string index out of range")
  | .dict _, i => .error (.keyError (toString i))
  | _, _ => .error (.typeError "object is not subscriptable")

/-- Model of `result["choices"][0]["message"]["content"]` from the `try` block of
`summarize_with_diarization` (`SummaryModel.py` line 255). -/
def extract_content (result : PyVal) : Except PyErr PyVal := do
  let choices ← pyGetKey result "choices"
  let first ← pyGetIdx choices 0
  let message ← pyGetKey first "message"
  pyGetKey message "content"

/-- Outcome of `requests.post(...)`, `response.raise_for_status()` and
`response.json()`: `exn` covers every `requests.exceptions.RequestException`
(connection failures, HTTP error statuses, JSON decoding errors), `ok` a
parsed JSON body. -/
inductive HttpResult where
  | exn (msg : String)
  | ok (json : PyVal)

/-- Error-handling skeleton of `summarize_with_diarization`
(`SummaryModel.py` lines 157-260, `app/services/summarizer.py` lines 39-132)
with its two external effects made explicit: the `NTC_API_KEY` environment
variable and the HTTP exchange (whose request payload is built from the other
three arguments).  `Except.error` models an exception escaping to the caller:
only `KeyError` and `IndexError` are caught around the response parsing. -/
def summarize_with_diarization (api_key : Option String)
    (transcript_with_speakers : String)
    (speaker_summary : List (String × ℚ) × List (String × ℕ))
    (meeting_type_id : ℤ) (http : HttpResult) : Except PyErr PyVal :=
  if api_key = none ∨ api_key = some "" then
    .ok (.str "Error: NTC_API_KEY not found in environment variables")
  else
    match http with
    | .exn e => .ok (.str ("Error calling NTC API: " ++ e))
    | .ok j =>
      match extract_content j with
      | .ok v => .ok v
      | .error (.keyError m) => .ok (.str ("Error parsing response: " ++ m))
      | .error (.indexError m) => .ok (.str ("Error parsing response: " ++ m))
      | .error (.typeError m) => .error (.typeError m)

/-- Concrete two-segment input used to exercise the aggregation pass. -/
def demoSegs : List Segment :=
  [⟨2, 3, some "SPEAKER_01", " b b "⟩, ⟨0, 1, none, "a"⟩]

/-- The aggregation output `process` produces on `demoSegs`. -/
def demoOut : ProcessOutput :=
  ⟨[⟨0, 1, none, "a"⟩, ⟨2, 3, some "SPEAKER_01", " b b "⟩],
   [("Unknown", 1), ("คนพูด 2", 1)],
   [("Unknown", 1), ("คนพูด 2", 2)],
   "[Unknown]: a\n[คนพูด 2]: b b"⟩

/-! Helper lemmas. -/

theorem isPrefixOf_append_self (l t : List Char) : l.isPrefixOf (l ++ t) = true := by
  induction l with
  | nil => simp [List.isPrefixOf]
  | cons a as ih => simp [List.isPrefixOf, ih]

theorem splitPredAux_no_sep (p : Char → Bool) :
    ∀ (l acc : List Char), (∀ x ∈ l, p x = false) →
      splitPredAux p l acc = [acc.reverse ++ l] := by
  intro l
  induction l with
  | nil => intro acc _; simp [splitPredAux]
  | cons a as ih =>
    intro acc h
    have ha : p a = false := h a (by simp)
    rw [splitPredAux, ha]
    simp only [Bool.false_eq_true, if_false]
    rw [ih (a :: acc) (fun x hx => h x (by simp [hx]))]
    simp

theorem toDigitsCore_length_ge (b : ℕ) :
    ∀ (fuel n : ℕ) (acc : List Char),
      acc.length + 1 ≤ (Nat.toDigitsCore b (fuel + 1) n acc).length := by
  intro fuel
  induction fuel with
  | zero =>
    intro n acc
    rw [Nat.toDigitsCore]
    split
    · simp
    · rw [Nat.toDigitsCore]
      simp
  | succ f ih =>
    intro n acc
    rw [Nat.toDigitsCore]
    split
    · simp
    · calc acc.length + 1 ≤ (Nat.digitChar (n % b) :: acc).length + 1 := by simp
        _ ≤ _ := ih (n / b) (Nat.digitChar (n % b) :: acc)

theorem Nat_repr_length_pos (n : ℕ) : 1 ≤ (Nat.repr n).length := by
  rw [Nat.repr, List.length_asString, Nat.toDigits]
  calc 1 = ([] : List Char).length + 1 := by simp
    _ ≤ _ := toDigitsCore_length_ge 10 n n []

theorem Nat_repr_length_ge_two (n : ℕ) (h : 10 ≤ n) : 2 ≤ (Nat.repr n).length := by
  rw [Nat.repr, List.length_asString, Nat.toDigits]
  obtain ⟨m, rfl⟩ : ∃ m, n = m + 1 := ⟨n - 1, by omega⟩
  rw [Nat.toDigitsCore]
  rw [if_neg (by omega)]
  calc 2 = ([Nat.digitChar ((m + 1) % 10)] : List Char).length + 1 := by simp
    _ ≤ _ := toDigitsCore_length_ge 10 m ((m + 1) / 10) _

theorem Int_toString_nonneg (n : ℤ) (h : 0 ≤ n) : toString n = Nat.repr n.toNat := by
  cases n with
  | ofNat m => rfl
  | negSucc m => exact absurd h (by simp)

theorem Nat_repr_length_le (n e : ℕ) (he : 0 < e) (hn : n < 10 ^ e) :
    (Nat.repr n).length ≤ e := Nat.repr_length n e he hn

theorem pad2_length_ge_two (n : ℤ) (h : 0 ≤ n) : 2 ≤ (pad2 n).length := by
  rw [pad2, if_neg (by omega)]
  by_cases h10 : n < 10
  · rw [if_pos h10, String.length_append]
    have h1 := Nat_repr_length_pos n.toNat
    rw [Int_toString_nonneg n h]
    have h0 : ("0" : String).length = 1 := rfl
    omega
  · rw [if_neg h10, Int_toString_nonneg n h]
    exact Nat_repr_length_ge_two n.toNat (by omega)

theorem pad2_length_eq_two (n : ℤ) (h : 0 ≤ n) (h2 : n < 100) : (pad2 n).length = 2 := by
  have hge := pad2_length_ge_two n h
  rw [pad2, if_neg (by omega)] at hge ⊢
  by_cases h10 : n < 10
  · rw [if_pos h10, String.length_append, Int_toString_nonneg n h] at hge ⊢
    have hle := Nat_repr_length_le n.toNat 1 (by omega) (by omega)
    have h0 : ("0" : String).length = 1 := rfl
    omega
  · rw [if_neg h10, Int_toString_nonneg n h] at hge ⊢
    have hle := Nat_repr_length_le n.toNat 2 (by omega) (by omega)
    omega

theorem floor_sub_floor_div_mul_eq_emod (q : ℚ) :
    ⌊q - 60 * ⌊q / 60⌋⌋ = ⌊q⌋ % 60 := by
  have hcast : q - 60 * (⌊q / 60⌋ : ℚ) = q - ((60 * ⌊q / 60⌋ : ℤ) : ℚ) := by
    push_cast
    ring
  rw [hcast, Int.floor_sub_int]
  have h1 : 0 ≤ q - ⌊q / 60⌋ * 60 := Int.sub_floor_div_mul_nonneg q (by norm_num)
  have h2 : q - ⌊q / 60⌋ * 60 < 60 := Int.sub_floor_div_mul_lt q (by norm_num)
  have h3 : 0 ≤ ⌊q⌋ - 60 * ⌊q / 60⌋ := by
    have hle : ((60 * ⌊q / 60⌋ : ℤ) : ℚ) ≤ q := by push_cast; linarith
    have := Int.le_floor.mpr hle
    omega
  have h4 : ⌊q⌋ - 60 * ⌊q / 60⌋ < 60 := by
    have hlt : q < ((60 * ⌊q / 60⌋ + 60 : ℤ) : ℚ) := by push_cast; linarith
    have := Int.floor_lt.mpr hlt
    omega
  omega

theorem dictFind_dictUpd_self {κ α : Type} [BEq κ] [LawfulBEq κ]
    (d : List (κ × α)) (k : κ) (v : α) :
    dictFind (dictUpd d k v) k = some v := by
  induction d with
  | nil => simp [dictUpd, dictFind, List.find?]
  | cons p rest ih =>
    obtain ⟨k', v'⟩ := p
    by_cases h : k' == k
    · simp [dictUpd, h, dictFind, List.find?]
    · simp only [dictUpd, h, if_false, Bool.false_eq_true]
      simp only [dictFind, List.find?, h] at ih ⊢
      exact ih

theorem dictFind_dictUpd_ne {κ α : Type} [BEq κ] [LawfulBEq κ]
    (d : List (κ × α)) (k k' : κ) (v : α) (h : k' ≠ k) :
    dictFind (dictUpd d k v) k' = dictFind d k' := by
  have hbe : (k == k') = false := beq_eq_false_iff_ne.mpr (Ne.symm h)
  induction d with
  | nil => simp [dictUpd, dictFind, List.find?, hbe]
  | cons p rest ih =>
    obtain ⟨k'', v''⟩ := p
    by_cases hh : k'' == k
    · have : k'' = k := eq_of_beq hh
      subst this
      simp [dictUpd, hh, dictFind, List.find?, hbe]
    · simp only [dictUpd, hh, if_false, Bool.false_eq_true]
      simp only [dictFind, List.find?] at ih ⊢
      cases hq : k'' == k'
      · simp only [hq]
        exact ih
      · simp [hq]

theorem dictUpd_keys {κ α : Type} [BEq κ] [LawfulBEq κ]
    (d : List (κ × α)) (k : κ) (v : α) :
    (dictUpd d k v).map Prod.fst =
      if (d.map Prod.fst).any (fun x => x == k) then d.map Prod.fst
      else d.map Prod.fst ++ [k] := by
  induction d with
  | nil => simp [dictUpd]
  | cons p rest ih =>
    obtain ⟨k', v'⟩ := p
    by_cases h : k' == k
    · have : k' = k := eq_of_beq h
      subst this
      simp [dictUpd, h]
    · simp [dictUpd, h, ih]
      by_cases hc : (rest.map Prod.fst).any (fun x => x == k)
      · simp [hc]
      · simp only [Bool.not_eq_true] at h hc
        simp [h, hc]

theorem dictUpd_length_ge {κ α : Type} [BEq κ]
    (d : List (κ × α)) (k : κ) (v : α) :
    d.length ≤ (dictUpd d k v).length := by
  induction d with
  | nil => simp [dictUpd]
  | cons p rest ih =>
    obtain ⟨k', v'⟩ := p
    by_cases h : k' == k
    · simp [dictUpd, h]
    · simp only [dictUpd, h, if_false, Bool.false_eq_true, List.length_cons]
      omega

theorem processLoop_invariant :
    ∀ (l : List Segment) (st : List (String × ℚ)) (wc : List (String × ℕ))
      (lines : List String)
      (res : List (String × ℚ) × List (String × ℕ) × List String),
      processLoop l st wc lines = some res →
      (∀ k, dictFind res.1 k =
        if dictFind st k = none ∧ labelFilter l k = [] then none
        else some (dictGetD st k 0 + ((labelFilter l k).map segDur).sum)) ∧
      (∀ k, dictFind res.2.1 k =
        if dictFind wc k = none ∧ labelFilter l k = [] then none
        else some (dictGetD wc k 0 + ((labelFilter l k).map segWords).sum)) ∧
      res.2.2 = lines ++ l.filterMap mkLine ∧
      (st.map Prod.fst = wc.map Prod.fst →
        res.1.map Prod.fst = res.2.1.map Prod.fst) ∧
      st.length ≤ res.1.length ∧
      (∀ s ∈ l, (format_speaker s.speaker).isSome = true) := by
  intro l
  induction l with
  | nil =>
    intro st wc lines res h
    rw [processLoop] at h
    injection h with h
    subst h
    refine ⟨?_, ?_, by simp [List.filterMap_nil], fun hk => hk, le_refl _, by simp⟩
    · intro k
      by_cases hf : dictFind st k = none
      · simp [labelFilter, hf]
      · obtain ⟨v, hv⟩ := Option.ne_none_iff_exists'.mp hf
        simp [labelFilter, hv, dictGetD]
    · intro k
      by_cases hf : dictFind wc k = none
      · simp [labelFilter, hf]
      · obtain ⟨v, hv⟩ := Option.ne_none_iff_exists'.mp hf
        simp [labelFilter, hv, dictGetD]
  | cons seg rest ih =>
    intro st wc lines res h
    rw [processLoop] at h
    cases hspk : format_speaker seg.speaker with
    | none =>
      rw [hspk] at h
      exact absurd h (by simp)
    | some spk =>
      rw [hspk] at h
      simp only [] at h
      obtain ⟨ih1, ih2, ih3, ih4, ih5, ih6⟩ := ih _ _ _ _ h
      have hfcons_eq : ∀ k, spk = k →
          labelFilter (seg :: rest) k = seg :: labelFilter rest k := by
        intro k hk
        subst hk
        simp [labelFilter, List.filter_cons, hspk]
      have hfcons_ne : ∀ k, spk ≠ k →
          labelFilter (seg :: rest) k = labelFilter rest k := by
        intro k hk
        simp [labelFilter, List.filter_cons, hspk, hk]
      refine ⟨?_, ?_, ?_, ?_, ?_, ?_⟩
      · intro k
        rw [ih1 k]
        by_cases hk : spk = k
        · subst hk
          have hself := dictFind_dictUpd_self st spk
            (dictGetD st spk 0 + (seg.«end» - seg.start))
          rw [hfcons_eq spk rfl]
          rw [if_neg (by simp [hself]), if_neg (by simp)]
          rw [dictGetD, hself]
          simp [segDur, add_assoc]
        · have hne := dictFind_dictUpd_ne st spk k
            (dictGetD st spk 0 + (seg.«end» - seg.start)) (Ne.symm hk)
          rw [hfcons_ne k hk, hne]
          rw [show dictGetD (dictUpd st spk (dictGetD st spk 0 +
            (seg.«end» - seg.start))) k 0 = dictGetD st k 0 from by
              rw [dictGetD, hne, dictGetD]]
      · intro k
        rw [ih2 k]
        by_cases hk : spk = k
        · subst hk
          have hself := dictFind_dictUpd_self wc spk
            (dictGetD wc spk 0 + (pySplitWS (pyStrip seg.text)).length)
          rw [hfcons_eq spk rfl]
          rw [if_neg (by simp [hself]), if_neg (by simp)]
          rw [dictGetD, hself]
          simp [segWords, add_assoc]
        · have hne := dictFind_dictUpd_ne wc spk k
            (dictGetD wc spk 0 + (pySplitWS (pyStrip seg.text)).length)
            (Ne.symm hk)
          rw [hfcons_ne k hk, hne]
          rw [show dictGetD (dictUpd wc spk (dictGetD wc spk 0 +
            (pySplitWS (pyStrip seg.text)).length)) k 0 = dictGetD wc k 0 from by
              rw [dictGetD, hne, dictGetD]]
      · rw [ih3]
        have hml : mkLine seg = some ("[" ++ spk ++ "]: " ++ pyStrip seg.text) := by
          rw [mkLine, hspk]
          rfl
        rw [List.filterMap_cons, hml]
        simp
      · intro hkeys
        apply ih4
        rw [dictUpd_keys, dictUpd_keys, hkeys]
      · exact le_trans (dictUpd_length_ge st spk _) ih5
      · intro s hs
        rcases List.mem_cons.mp hs with hs | hs
        · subst hs
          rw [hspk]
          rfl
        · exact ih6 s hs

theorem process_eq (segs : List Segment) (out : ProcessOutput)
    (h : process segs = some out) :
    ∃ res, processLoop (sortSegments segs) [] [] [] = some res ∧
      out.segments = sortSegments segs ∧ out.speaking_time = res.1 ∧
      out.word_count = res.2.1 ∧
      out.transcript_with_speakers = String.intercalate "\n" res.2.2 := by
  rw [process] at h
  cases hp : processLoop (sortSegments segs) [] [] [] with
  | none =>
    rw [hp] at h
    exact absurd h (by simp)
  | some r =>
    rw [hp] at h
    obtain ⟨r1, r2, r3⟩ := r
    simp only [Option.some.injEq] at h
    exact ⟨(r1, r2, r3), rfl, by rw [← h], by rw [← h], by rw [← h], by rw [← h]⟩

/-! Claim theorems and witnesses. -/

/-- C1: for every segment list on which the aggregation pass succeeds, the
produced `speaking_time` map sends each formatted speaker label to the sum of
`end - start` over exactly the segments carrying that label, and `word_count`
sends it to the sum of the whitespace-split word counts of those segments'
stripped texts; a segment with no speaker label is counted under the label
produced by `format_speaker none`, which is `"Unknown"`. -/
theorem C1_speaker_aggregation (segs : List Segment) (out : ProcessOutput)
    (h : process segs = some out) (lbl : String) :
    dictFind out.speaking_time lbl = spec_speaking_time segs lbl ∧
    dictFind out.word_count lbl = spec_word_count segs lbl ∧
    format_speaker none = some "Unknown" := by
  obtain ⟨res, hres, hseg, hst, hwc, htr⟩ := process_eq segs out h
  obtain ⟨i1, i2, i3, i4, i5, i6⟩ := processLoop_invariant _ _ _ _ _ hres
  have hperm : List.Perm (labelFilter (sortSegments segs) lbl)
      (labelFilter segs lbl) :=
    (List.perm_insertionSort segLE segs).filter _
  have hlen := hperm.length_eq
  refine ⟨?_, ?_, rfl⟩
  · rw [hst, i1 lbl, spec_speaking_time]
    by_cases hE : labelFilter segs lbl = []
    · have hE' : labelFilter (sortSegments segs) lbl = [] := by
        rw [← List.length_eq_zero, hlen, List.length_eq_zero]
        exact hE
      rw [if_pos ⟨rfl, hE'⟩, if_pos hE]
    · have hE' : labelFilter (sortSegments segs) lbl ≠ [] := by
        intro hc
        have hz : (labelFilter segs lbl).length = 0 := by rw [← hlen, hc]; rfl
        exact hE (List.length_eq_zero.mp hz)
      rw [if_neg (by intro hc; exact hE' hc.2), if_neg hE]
      rw [(hperm.map segDur).sum_eq]
      rw [show dictGetD ([] : List (String × ℚ)) lbl 0 = 0 from rfl, zero_add]
  · rw [hwc, i2 lbl, spec_word_count]
    by_cases hE : labelFilter segs lbl = []
    · have hE' : labelFilter (sortSegments segs) lbl = [] := by
        rw [← List.length_eq_zero, hlen, List.length_eq_zero]
        exact hE
      rw [if_pos ⟨rfl, hE'⟩, if_pos hE]
    · have hE' : labelFilter (sortSegments segs) lbl ≠ [] := by
        intro hc
        have hz : (labelFilter segs lbl).length = 0 := by rw [← hlen, hc]; rfl
        exact hE (List.length_eq_zero.mp hz)
      rw [if_neg (by intro hc; exact hE' hc.2), if_neg hE]
      rw [(hperm.map segWords).sum_eq]
      rw [show dictGetD ([] : List (String × ℕ)) lbl 0 = 0 from rfl, zero_add]

/-- Witness for C1 on a concrete two-segment input. -/
theorem C1_witness :
    dictFind demoOut.speaking_time "Unknown" = spec_speaking_time demoSegs "Unknown" ∧
    dictFind demoOut.word_count "Unknown" = spec_word_count demoSegs "Unknown" ∧
    format_speaker none = some "Unknown" :=
  C1_speaker_aggregation demoSegs demoOut (by
    norm_num +decide [process, demoSegs, demoOut, sortSegments,
      List.insertionSort, List.orderedInsert, segLE, processLoop,
      format_speaker, pySplitChar, splitPredAux, pyStartsWith, pyInt, decVal,
      pyStrip, pyIsSpace, pySplitWS, dictUpd, dictGetD, dictFind, mkLine,
      String.intercalate]) "Unknown"

/-- C2: `MEETING_TYPES` has exactly twelve entries keyed `0`..`11`, and
`get_meeting_type_prompt` works in exactly two modes: for id `0` it returns
the auto-detect prompt embedding a table of exactly the eleven entries with
keys greater than `0`, and for each id in `1`..`11` it returns the prompt
embedding that single entry's Thai name, English name and structure. -/
theorem C2_meeting_types_prompt_selection :
    MEETING_TYPES.map Prod.fst = [0, 1, 2, 3, 4, 5, 6, 7, 8, 9, 10, 11] ∧
    MEETING_TYPES.length = 12 ∧
    (MEETING_TYPES.filter (fun p => 0 < p.1)).map Prod.fst =
      [1, 2, 3, 4, 5, 6, 7, 8, 9, 10, 11] ∧
    get_meeting_type_prompt 0 = auto_prompt_header ++ String.intercalate "\n"
      ((MEETING_TYPES.filter (fun p => 0 < p.1)).map
        (fun p => "| " ++ p.2.name ++ " | " ++ p.2.«structure» ++ " |")) ∧
    ∀ id : ℤ, 1 ≤ id → id ≤ 11 →
      ∃ info, dictFind MEETING_TYPES id = some info ∧
        get_meeting_type_prompt id = specific_prompt info := by
  refine ⟨by decide, by decide, by decide, rfl, ?_⟩
  intro id h1 h2
  interval_cases id <;> exact ⟨_, rfl, rfl⟩

/-- Witness for C2 at the concrete id `3`. -/
theorem C2_witness :
    ∃ info, dictFind MEETING_TYPES 3 = some info ∧
      get_meeting_type_prompt 3 = specific_prompt info :=
  C2_meeting_types_prompt_selection.2.2.2.2 3 (by decide) (by decide)

/-- C3: for every integer id that is not `0` and not a key of
`MEETING_TYPES`, `get_meeting_type_prompt` falls back to the prompt built
from the default entry `11` (General Meeting) instead of failing, and the
`MEETING_TYPES.get(id, MEETING_TYPES[0])` lookups on the summarization path
substitute the Auto-Detect entry for an absent key and the entry itself for a
present key, for every integer id. -/
theorem C3_meeting_type_fallback :
    (∀ id : ℤ, id ≠ 0 → dictFind MEETING_TYPES id = none →
      get_meeting_type_prompt id =
        specific_prompt ⟨"General Meeting", "ประชุมทั่วไป", "วาระ → ประเด็นหารือ → ข้อเสนอแนะ → มติ"⟩) ∧
    (∀ id : ℤ, dictFind MEETING_TYPES id = none →
      meeting_info_auto_default id =
        ⟨"Auto-Detect", "ตรวจจับอัตโนมัติ", "วิเคราะห์จากเนื้อหา"⟩) ∧
    (∀ id : ℤ, ∀ info, dictFind MEETING_TYPES id = some info →
      meeting_info_auto_default id = info) := by
  refine ⟨?_, ?_, ?_⟩
  · intro id h0 hf
    unfold get_meeting_type_prompt
    rw [if_neg h0, hf]
    rfl
  · intro id hf
    unfold meeting_info_auto_default
    rw [hf]
    rfl
  · intro id info hf
    unfold meeting_info_auto_default
    rw [hf]
    rfl

/-- Witness for C3 at the concrete absent key `12`. -/
theorem C3_witness :
    get_meeting_type_prompt 12 =
      specific_prompt ⟨"General Meeting", "ประชุมทั่วไป", "วาระ → ประเด็นหารือ → ข้อเสนอแนะ → มติ"⟩ ∧
    meeting_info_auto_default 12 =
      ⟨"Auto-Detect", "ตรวจจับอัตโนมัติ", "วิเคราะห์จากเนื้อหา"⟩ :=
  ⟨C3_meeting_type_fallback.1 12 (by decide) (by decide), C3_meeting_type_fallback.2.1 12 (by decide)⟩

/-- C4: the per-speaker percentage computation is guarded against a zero
total: the total is taken as `1` when the `speaking_time` map is empty,
whenever the summed total is not strictly positive every percentage is `0`,
and the division `t / total * 100` is only ever evaluated with a strictly
positive divisor; the same guard holds for the `print_results` total. -/
theorem C4_percentage_zero_guard :
    summary_total_time [] = 1 ∧
    (∀ st : List (String × ℚ), st ≠ [] → (st.map (fun p => p.2)).sum ≤ 0 →
      ∀ t, pct_of (summary_total_time st) t = 0) ∧
    (∀ st : List (String × ℚ), ∀ t, pct_of (summary_total_time st) t = 0 ∨
      (0 < summary_total_time st ∧
        pct_of (summary_total_time st) t = t / summary_total_time st * 100)) ∧
    (∀ st : List (String × ℚ), (st.map (fun p => p.2)).sum ≤ 0 →
      ∀ t, pct_of (print_total_time st) t = 0) ∧
    (∀ st : List (String × ℚ), ∀ t, pct_of (print_total_time st) t = 0 ∨
      (0 < print_total_time st ∧
        pct_of (print_total_time st) t = t / print_total_time st * 100)) := by
  refine ⟨rfl, ?_, ?_, ?_, ?_⟩
  · intro st hne hsum t
    rw [summary_total_time, if_neg hne, pct_of, if_neg (not_lt.mpr hsum)]
  · intro st t
    by_cases h : 0 < summary_total_time st
    · exact Or.inr ⟨h, by rw [pct_of, if_pos h]⟩
    · exact Or.inl (by rw [pct_of, if_neg h])
  · intro st hsum t
    rw [print_total_time, pct_of, if_neg (not_lt.mpr hsum)]
  · intro st t
    by_cases h : 0 < print_total_time st
    · exact Or.inr ⟨h, by rw [pct_of, if_pos h]⟩
    · exact Or.inl (by rw [pct_of, if_neg h])

/-- Witness for C4 on a one-speaker map whose total is zero. -/
theorem C4_witness :
    (∀ t, pct_of (summary_total_time [("A", 0)]) t = 0) ∧
    (∀ t, pct_of (print_total_time [("A", 0)]) t = 0) := by
  constructor
  · exact C4_percentage_zero_guard.2.1 [("A", 0)] (by decide) (by norm_num)
  · exact C4_percentage_zero_guard.2.2.2.1 [("A", 0)] (by norm_num)

/-- C5: whenever the aggregation pass succeeds, the pipeline returns the
segments sorted in ascending order of their start timestamp (a permutation of
the input), and `transcript_with_speakers` is exactly the newline-join, in
that order, of one line `"[<formatted speaker>]: <stripped text>"` per
segment. -/
theorem C5_sorted_transcript (segs : List Segment) (out : ProcessOutput)
    (h : process segs = some out) :
    List.Sorted segLE out.segments ∧
    List.Perm out.segments segs ∧
    out.transcript_with_speakers =
      String.intercalate "\n" (out.segments.filterMap mkLine) ∧
    ∀ s ∈ segs, (mkLine s).isSome = true := by
  obtain ⟨res, hres, hseg, hst, hwc, htr⟩ := process_eq segs out h
  obtain ⟨i1, i2, i3, i4, i5, i6⟩ := processLoop_invariant _ _ _ _ _ hres
  refine ⟨?_, ?_, ?_, ?_⟩
  · rw [hseg, sortSegments]
    exact List.sorted_insertionSort segLE segs
  · rw [hseg, sortSegments]
    exact List.perm_insertionSort segLE segs
  · rw [htr, i3, hseg]
    simp
  · intro s hs
    have hmem : s ∈ sortSegments segs := by
      rw [sortSegments]
      exact (List.mem_insertionSort segLE).mpr hs
    have hso := i6 s hmem
    rw [mkLine]
    cases hfs : format_speaker s.speaker with
    | none => rw [hfs] at hso; exact absurd hso (by simp)
    | some spk => rfl

/-- Witness for C5 on a concrete two-segment input. -/
theorem C5_witness :
    List.Sorted segLE demoOut.segments ∧
    List.Perm demoOut.segments demoSegs ∧
    demoOut.transcript_with_speakers =
      String.intercalate "\n" (demoOut.segments.filterMap mkLine) ∧
    ∀ s ∈ demoSegs, (mkLine s).isSome = true :=
  C5_sorted_transcript demoSegs demoOut (by
    norm_num +decide [process, demoSegs, demoOut, sortSegments,
      List.insertionSort, List.orderedInsert, segLE, processLoop,
      format_speaker, pySplitChar, splitPredAux, pyStartsWith, pyInt, decVal,
      pyStrip, pyIsSpace, pySplitWS, dictUpd, dictGetD, dictFind, mkLine,
      String.intercalate])

/-- C6: the `/api/transcribe-summarize` endpoint rejects with HTTP 400,
before any transcription work, every request whose `meeting_type_id` is below
`0` or above `11`, and every request whose uploaded file's lower-cased
extension is not one of `.mp3`, `.wav`, `.m4a`, `.flac`, `.ogg`, `.webm`,
`.mp4`; a request passing both checks is not rejected by these validations. -/
theorem C6_endpoint_validation :
    (∀ (id : ℤ) (fn : String), id < 0 ∨ 11 < id →
      transcribe_summarize_validation id fn =
        Except.error (400, "meeting_type_id must be between 0 and 11")) ∧
    (∀ (id : ℤ) (fn : String), 0 ≤ id → id ≤ 11 →
      ¬ allowed_extensions.contains (pyLower (splitext_ext fn)) →
      transcribe_summarize_validation id fn =
        Except.error (400,
          "Unsupported file type. Allowed: .mp3, .wav, .m4a, .flac, .ogg, .webm, .mp4")) ∧
    (∀ (id : ℤ) (fn : String), 0 ≤ id → id ≤ 11 →
      allowed_extensions.contains (pyLower (splitext_ext fn)) →
      transcribe_summarize_validation id fn = Except.ok ()) := by
  refine ⟨?_, ?_, ?_⟩
  · intro id fn h
    rw [transcribe_summarize_validation, if_pos h]
  · intro id fn h0 h1 hext
    rw [transcribe_summarize_validation, if_neg (by omega), if_pos hext]
    rfl
  · intro id fn h0 h1 hext
    rw [transcribe_summarize_validation, if_neg (by omega), if_neg (not_not.mpr hext)]

/-- Witness for C6 at concrete ids and filenames. -/
theorem C6_witness :
    transcribe_summarize_validation (-1) "a.mp3" =
      Except.error (400, "meeting_type_id must be between 0 and 11") ∧
    transcribe_summarize_validation 3 "a.txt" =
      Except.error (400,
        "Unsupported file type. Allowed: .mp3, .wav, .m4a, .flac, .ogg, .webm, .mp4") ∧
    transcribe_summarize_validation 3 "a.MP3" = Except.ok () :=
  ⟨C6_endpoint_validation.1 (-1) "a.mp3" (by omega),
   C6_endpoint_validation.2.1 3 "a.txt" (by decide) (by decide) (by decide),
   C6_endpoint_validation.2.2 3 "a.MP3" (by decide) (by decide) (by decide)⟩

/-- C7 counterexample: the claim says `summarize_with_diarization` never
raises on external failure and returns an `Error parsing response:` string
whenever the response JSON lacks `choices[0].message.content`; but for the
concrete well-formed JSON response `{"choices": [{"message": 5}]}` the
subscript `5["content"]` raises a `TypeError`, which is not caught by the
`except (KeyError, IndexError)` handler and escapes to the caller. -/
theorem C7_counterexample :
    summarize_with_diarization (some "key") "" ([], []) 0
      (HttpResult.ok (PyVal.dict
        [("choices", PyVal.list [PyVal.dict [("message", PyVal.num 5)]])])) =
    Except.error (PyErr.typeError "object is not subscriptable") := rfl

/-- C7 (amended): with the `NTC_API_KEY` unset or empty,
`summarize_with_diarization` returns the exact configuration-error string and
its result does not depend on the HTTP exchange; on a request failure it
returns a string beginning `Error calling NTC API:`; when the response JSON
lacks `choices[0].message.content` because of a missing dictionary key or an
out-of-range list index it returns a string beginning
`Error parsing response:`; and on a successful extraction it returns the
content.  (A wrongly-typed intermediate value instead raises `TypeError`, as
the counterexample shows.) -/
theorem C7_error_strings_amended :
    (∀ (t : String) (ss : List (String × ℚ) × List (String × ℕ)) (mid : ℤ)
        (h1 h2 : HttpResult),
      summarize_with_diarization none t ss mid h1 =
        summarize_with_diarization none t ss mid h2) ∧
    (∀ (t : String) (ss : List (String × ℚ) × List (String × ℕ)) (mid : ℤ)
        (h : HttpResult),
      summarize_with_diarization none t ss mid h =
        Except.ok (PyVal.str "Error: NTC_API_KEY not found in environment variables")) ∧
    (∀ (t : String) (ss : List (String × ℚ) × List (String × ℕ)) (mid : ℤ)
        (h : HttpResult),
      summarize_with_diarization (some "") t ss mid h =
        Except.ok (PyVal.str "Error: NTC_API_KEY not found in environment variables")) ∧
    (∀ (k : String) (t : String) (ss : List (String × ℚ) × List (String × ℕ))
        (mid : ℤ) (e : String), k ≠ "" →
      summarize_with_diarization (some k) t ss mid (HttpResult.exn e) =
        Except.ok (PyVal.str ("Error calling NTC API: " ++ e))) ∧
    (∀ (k : String) (t : String) (ss : List (String × ℚ) × List (String × ℕ))
        (mid : ℤ) (j : PyVal) (m : String), k ≠ "" →
      extract_content j = Except.error (PyErr.keyError m) →
      summarize_with_diarization (some k) t ss mid (HttpResult.ok j) =
        Except.ok (PyVal.str ("Error parsing response: " ++ m))) ∧
    (∀ (k : String) (t : String) (ss : List (String × ℚ) × List (String × ℕ))
        (mid : ℤ) (j : PyVal) (m : String), k ≠ "" →
      extract_content j = Except.error (PyErr.indexError m) →
      summarize_with_diarization (some k) t ss mid (HttpResult.ok j) =
        Except.ok (PyVal.str ("Error parsing response: " ++ m))) ∧
    (∀ (k : String) (t : String) (ss : List (String × ℚ) × List (String × ℕ))
        (mid : ℤ) (j : PyVal) (v : PyVal), k ≠ "" →
      extract_content j = Except.ok v →
      summarize_with_diarization (some k) t ss mid (HttpResult.ok j) =
        Except.ok v) := by
  have hkey : ∀ k : String, k ≠ "" →
      ¬ ((some k : Option String) = none ∨ (some k : Option String) = some "") := by
    intro k hk hc
    rcases hc with hc | hc
    · exact Option.noConfusion hc
    · exact hk (Option.some.inj hc)
  refine ⟨?_, ?_, ?_, ?_, ?_, ?_, ?_⟩
  · intro t ss mid h1 h2
    rw [summarize_with_diarization.eq_def, summarize_with_diarization.eq_def,
      if_pos (Or.inl rfl), if_pos (Or.inl rfl)]
  · intro t ss mid h
    rw [summarize_with_diarization.eq_def, if_pos (Or.inl rfl)]
  · intro t ss mid h
    rw [summarize_with_diarization.eq_def, if_pos (Or.inr rfl)]
  · intro k t ss mid e hk
    rw [summarize_with_diarization.eq_def, if_neg (hkey k hk)]
  · intro k t ss mid j m hk hx
    rw [summarize_with_diarization.eq_def, if_neg (hkey k hk)]
    simp only [hx]
  · intro k t ss mid j m hk hx
    rw [summarize_with_diarization.eq_def, if_neg (hkey k hk)]
    simp only [hx]
  · intro k t ss mid j v hk hx
    rw [summarize_with_diarization.eq_def, if_neg (hkey k hk)]
    simp only [hx]

/-- Witness for C7 (amended) on a response missing the `choices` key. -/
theorem C7_witness :
    summarize_with_diarization (some "k") "" ([], []) 0
      (HttpResult.ok (PyVal.dict [])) =
    Except.ok (PyVal.str ("Error parsing response: " ++ "'choices'")) :=
  C7_error_strings_amended.2.2.2.2.1 "k" "" ([], []) 0 (PyVal.dict []) "'choices'"
    (by decide) rfl

/-- C8: `format_speaker` is deterministic and, on the claimed domain, total:
`None` and the empty string map to `"Unknown"`, a string `SPEAKER_` followed
by a decimal number `k` maps to `"คนพูด "` followed by `k + 1`, and every
other non-empty string not starting with `SPEAKER_` is returned unchanged. -/
theorem C8_format_speaker_total :
    format_speaker none = some "Unknown" ∧
    format_speaker (some "") = some "Unknown" ∧
    (∀ ds : String, ds ≠ "" → ds.data.all Char.isDigit = true →
      format_speaker (some ("SPEAKER_" ++ ds)) =
        some ("คนพูด " ++ toString (decVal ds.data + 1))) ∧
    (∀ s : String, s ≠ "" → pyStartsWith s "SPEAKER_" = false →
      format_speaker (some s) = some s) := by
  refine ⟨rfl, by decide, ?_, ?_⟩
  · intro ds h1 h2
    have hne : ("SPEAKER_" ++ ds) ≠ "" := by
      intro hc
      have : ("SPEAKER_" ++ ds).data = [] := by rw [hc]
      simp [String.data_append] at this
    have hsw : pyStartsWith ("SPEAKER_" ++ ds) "SPEAKER_" = true := by
      rw [pyStartsWith, String.data_append]
      exact isPrefixOf_append_self _ _
    have hns : ∀ x ∈ ds.data, (x == '_') = false := by
      intro x hx
      have hd : x.isDigit = true := by
        have := List.all_eq_true.mp h2
        exact this x hx
      cases hbe : x == '_' with
      | false => rfl
      | true =>
        have : x = '_' := eq_of_beq hbe
        subst this
        simp [Char.isDigit] at hd
    rw [format_speaker]
    rw [if_pos ⟨hne, hsw⟩]
    have hstep : splitPredAux (fun x => x == '_') ("SPEAKER_" ++ ds).data [] =
        "SPEAKER".data :: splitPredAux (fun x => x == '_') ds.data [] := rfl
    rw [pySplitChar, hstep, splitPredAux_no_sep _ ds.data [] hns]
    simp only [List.reverse_nil, List.nil_append, List.map_cons, List.map_nil]
    rw [show (⟨ds.data⟩ : String) = ds from rfl]
    show (match pyInt ds with
      | none => none
      | some n => some ("คนพูด " ++ toString (n + 1))) = _
    rw [pyInt, if_pos ⟨h1, h2⟩]
  · intro s h1 h2
    rw [format_speaker]
    rw [if_neg (fun hc => by rw [h2] at hc; exact absurd hc.2 (by simp))]
    rw [if_neg h1]

/-- Witness for C8 at a concrete speaker label and plain string. -/
theorem C8_witness :
    format_speaker (some ("SPEAKER_" ++ "7")) =
      some ("คนพูด " ++ toString (decVal "7".data + 1)) ∧
    format_speaker (some "SPEAKER_7") = some "คนพูด 8" :=
  ⟨C8_format_speaker_total.2.2.1 "7" (by decide) (by decide), by decide⟩

/-- C9: for every non-negative number of seconds, `format_time` renders
`M:S.C` where `M` is `⌊seconds / 60⌋` zero-padded to at least two digits, `S`
is the integer part of `seconds mod 60` (in `0`..`59`) zero-padded to two
digits, and `C` is exactly two digits equal to the integer part of the
fractional second times `100` — hundredths of a second, not milliseconds. -/
theorem C9_format_time_fields (q : ℚ) (h : 0 ≤ q) :
    format_time q =
      pad2 ⌊q / 60⌋ ++ ":" ++ pad2 (⌊q⌋ % 60) ++ "." ++ pad2 ⌊(q - ⌊q⌋) * 100⌋ ∧
    0 ≤ ⌊q⌋ % 60 ∧ ⌊q⌋ % 60 < 60 ∧
    0 ≤ ⌊(q - ⌊q⌋) * 100⌋ ∧ ⌊(q - ⌊q⌋) * 100⌋ < 100 ∧
    (pad2 (⌊q⌋ % 60)).length = 2 ∧
    (pad2 ⌊(q - ⌊q⌋) * 100⌋).length = 2 ∧
    2 ≤ (pad2 ⌊q / 60⌋).length := by
  have hf0 : 0 ≤ q - ⌊q⌋ := sub_nonneg.mpr (Int.floor_le q)
  have hf1 : q - ⌊q⌋ < 1 := by linarith [Int.lt_floor_add_one q]
  have hms0 : 0 ≤ ⌊(q - ⌊q⌋) * 100⌋ := Int.le_floor.mpr (by push_cast; positivity)
  have hms1 : ⌊(q - ⌊q⌋) * 100⌋ < 100 := Int.floor_lt.mpr (by push_cast; linarith)
  refine ⟨?_, by omega, by omega, hms0, hms1, ?_, ?_, ?_⟩
  · show pad2 ⌊q / 60⌋ ++ ":" ++ pad2 ⌊q - 60 * ⌊q / 60⌋⌋ ++ "." ++
      pad2 ⌊(q - ⌊q⌋) * 100⌋ = _
    rw [floor_sub_floor_div_mul_eq_emod]
  · exact pad2_length_eq_two _ (by omega) (by omega)
  · exact pad2_length_eq_two _ hms0 hms1
  · exact pad2_length_ge_two _ (Int.floor_nonneg.mpr (by positivity))

/-- Witness for C9 at zero seconds. -/
theorem C9_witness :
    format_time 0 =
      pad2 ⌊(0 : ℚ) / 60⌋ ++ ":" ++ pad2 (⌊(0 : ℚ)⌋ % 60) ++ "." ++
        pad2 ⌊((0 : ℚ) - ⌊(0 : ℚ)⌋) * 100⌋ ∧
    0 ≤ ⌊(0 : ℚ)⌋ % 60 ∧ ⌊(0 : ℚ)⌋ % 60 < 60 ∧
    0 ≤ ⌊((0 : ℚ) - ⌊(0 : ℚ)⌋) * 100⌋ ∧ ⌊((0 : ℚ) - ⌊(0 : ℚ)⌋) * 100⌋ < 100 ∧
    (pad2 (⌊(0 : ℚ)⌋ % 60)).length = 2 ∧
    (pad2 ⌊((0 : ℚ) - ⌊(0 : ℚ)⌋) * 100⌋).length = 2 ∧
    2 ≤ (pad2 ⌊(0 : ℚ) / 60⌋).length :=
  C9_format_time_fields 0 (le_refl 0)

/-- C10: whenever the aggregation pass succeeds, the `speaking_time` and
`word_count` maps have exactly the same key list, and each is empty if and
only if the input segment list is empty. -/
theorem C10_aggregation_invariant (segs : List Segment) (out : ProcessOutput)
    (h : process segs = some out) :
    out.speaking_time.map Prod.fst = out.word_count.map Prod.fst ∧
    (out.speaking_time = [] ↔ segs = []) ∧
    (out.word_count = [] ↔ segs = []) := by
  obtain ⟨res, hres, hseg, hst, hwc, htr⟩ := process_eq segs out h
  obtain ⟨i1, i2, i3, i4, i5, i6⟩ := processLoop_invariant _ _ _ _ _ hres
  have hkeys : out.speaking_time.map Prod.fst = out.word_count.map Prod.fst := by
    rw [hst, hwc]
    exact i4 rfl
  refine ⟨hkeys, ?_, ?_⟩
  · cases hsegs : segs with
    | nil =>
      subst hsegs
      rw [show sortSegments [] = [] from rfl] at hres
      rw [processLoop] at hres
      injection hres with hres
      rw [hst, ← hres]
      simp
    | cons a l =>
      have hne : segs ≠ [] := by rw [hsegs]; exact List.cons_ne_nil a l
      have hlen : (sortSegments segs).length = segs.length := by
        rw [sortSegments]
        exact List.length_insertionSort segLE segs
      have hsne : sortSegments segs ≠ [] := by
        intro hc
        have hz : segs.length = 0 := by rw [← hlen, hc]; rfl
        exact hne (List.length_eq_zero.mp hz)
      constructor
      · intro hempty
        exfalso
        cases hsort : sortSegments segs with
        | nil => exact hsne hsort
        | cons b bs =>
          rw [hsort, processLoop] at hres
          cases hb : format_speaker b.speaker with
          | none =>
            rw [hb] at hres
            exact absurd hres (by simp)
          | some spk =>
            rw [hb] at hres
            simp only [] at hres
            have i5' := (processLoop_invariant _ _ _ _ _ hres).2.2.2.2.1
            rw [hst] at hempty
            rw [hempty] at i5'
            simp [dictUpd] at i5'
      · intro hc
        exact absurd hc (List.cons_ne_nil a l)
  · rw [← List.map_eq_nil (f := Prod.fst), ← hkeys, List.map_eq_nil]
    cases hsegs : segs with
    | nil =>
      subst hsegs
      rw [show sortSegments [] = [] from rfl] at hres
      rw [processLoop] at hres
      injection hres with hres
      rw [hst, ← hres]
      simp
    | cons a l =>
      have hne : segs ≠ [] := by rw [hsegs]; exact List.cons_ne_nil a l
      have hlen : (sortSegments segs).length = segs.length := by
        rw [sortSegments]
        exact List.length_insertionSort segLE segs
      have hsne : sortSegments segs ≠ [] := by
        intro hc
        have hz : segs.length = 0 := by rw [← hlen, hc]; rfl
        exact hne (List.length_eq_zero.mp hz)
      constructor
      · intro hempty
        exfalso
        cases hsort : sortSegments segs with
        | nil => exact hsne hsort
        | cons b bs =>
          rw [hsort, processLoop] at hres
          cases hb : format_speaker b.speaker with
          | none =>
            rw [hb] at hres
            exact absurd hres (by simp)
          | some spk =>
            rw [hb] at hres
            simp only [] at hres
            have i5' := (processLoop_invariant _ _ _ _ _ hres).2.2.2.2.1
            rw [hst] at hempty
            rw [hempty] at i5'
            simp [dictUpd] at i5'
      · intro hc
        exact absurd hc (List.cons_ne_nil a l)

/-- Witness for C10 on a concrete two-segment input. -/
theorem C10_witness :
    demoOut.speaking_time.map Prod.fst = demoOut.word_count.map Prod.fst ∧
    (demoOut.speaking_time = [] ↔ demoSegs = []) ∧
    (demoOut.word_count = [] ↔ demoSegs = []) :=
  C10_aggregation_invariant demoSegs demoOut (by
    norm_num +decide [process, demoSegs, demoOut, sortSegments,
      List.insertionSort, List.orderedInsert, segLE, processLoop,
      format_speaker, pySplitChar, splitPredAux, pyStartsWith, pyInt, decVal,
      pyStrip, pyIsSpace, pySplitWS, dictUpd, dictGetD, dictFind, mkLine,
      String.intercalate])
